import Mathlib

/-!
Verification of the AWS S3 data store driver
(`src/bridge/src/client/data_store/aws_s3.rs`).

The driver is embedded shallowly:
* the S3 bucket content is a `Store`, an association list from keys to byte
  sequences (bytes are `Nat`s below 256 by construction);
* each driver operation is a pure Lean function over a `Store`, translated
  from the Rust source; operations that write return the updated `Store`
  alongside their `Result`;
* the SDK paginator is modelled as the stream of page results it hands to the
  driver's loop, so that page failures and missing key metadata are explicit;
* Rust's `String::as_bytes` / `String::from_utf8` are modelled by a full
  UTF-8 encoder/decoder over byte lists (strict: rejects overlong forms,
  surrogates and out-of-range code points, as Rust does);
* the compression utility (`crate::utils`, not part of the sources under
  verification) is modelled from the spec.
-/

/-! ## UTF-8 encoding and decoding (model of Rust `String::as_bytes` and
`String::from_utf8`) -/

/-- UTF-8 encoding of a single Unicode scalar value, as a list of bytes. -/
def utf8EncodeChar (c : Char) : List Nat :=
  let v := c.toNat
  if v < 0x80 then [v]
  else if v < 0x800 then [0xC0 + v / 64, 0x80 + v % 64]
  else if v < 0x10000 then
    [0xE0 + v / 4096, 0x80 + v / 64 % 64, 0x80 + v % 64]
  else
    [0xF0 + v / 0x40000, 0x80 + v / 4096 % 64, 0x80 + v / 64 % 64,
      0x80 + v % 64]

/-- UTF-8 encoding of a list of characters. -/
def utf8EncodeList : List Char → List Nat
  | [] => []
  | c :: cs => utf8EncodeChar c ++ utf8EncodeList cs

/-- UTF-8 encoding of a string: the model of Rust `s.as_bytes()`; its length
is the model of Rust `s.len()`. -/
def utf8Encode (s : String) : List Nat := utf8EncodeList s.data

/-- Strict UTF-8 decoding step, fuelled to make the recursion structural
(one unit of fuel per decoded character; a byte value `0` standing in for a
byte read past the end of the input is never a valid continuation byte, so
truncated sequences are rejected). Rejects invalid lead/continuation bytes,
overlong encodings, surrogate code points and values above `U+10FFFF`,
exactly the inputs Rust's `String::from_utf8` rejects. -/
def utf8DecodeF : Nat → List Nat → Option (List Char)
  | _, [] => some []
  | 0, _ :: _ => none
  | fuel + 1, b0 :: rest =>
    if b0 < 0x80 then
      (utf8DecodeF fuel rest).map (fun cs => Char.ofNat b0 :: cs)
    else if b0 < 0xC2 then
      -- 0x80–0xBF: continuation byte in lead position; 0xC0/0xC1: overlong
      none
    else if b0 < 0xE0 then
      if 0x80 ≤ rest.getD 0 0 ∧ rest.getD 0 0 < 0xC0 then
        (utf8DecodeF fuel (rest.drop 1)).map
          (fun cs =>
            Char.ofNat ((b0 - 0xC0) * 64 + (rest.getD 0 0 - 0x80)) :: cs)
      else none
    else if b0 < 0xF0 then
      if (0x80 ≤ rest.getD 0 0 ∧ rest.getD 0 0 < 0xC0) ∧
          (0x80 ≤ rest.getD 1 0 ∧ rest.getD 1 0 < 0xC0) then
        let v := (b0 - 0xE0) * 4096 + (rest.getD 0 0 - 0x80) * 64 +
          (rest.getD 1 0 - 0x80)
        if v < 0x800 then none
        else if 0xD800 ≤ v ∧ v < 0xE000 then none
        else (utf8DecodeF fuel (rest.drop 2)).map (fun cs => Char.ofNat v :: cs)
      else none
    else if b0 < 0xF5 then
      if (0x80 ≤ rest.getD 0 0 ∧ rest.getD 0 0 < 0xC0) ∧
          (0x80 ≤ rest.getD 1 0 ∧ rest.getD 1 0 < 0xC0) ∧
          (0x80 ≤ rest.getD 2 0 ∧ rest.getD 2 0 < 0xC0) then
        let v := (b0 - 0xF0) * 0x40000 + (rest.getD 0 0 - 0x80) * 4096 +
          (rest.getD 1 0 - 0x80) * 64 + (rest.getD 2 0 - 0x80)
        if v < 0x10000 then none
        else if 0x110000 ≤ v then none
        else (utf8DecodeF fuel (rest.drop 3)).map (fun cs => Char.ofNat v :: cs)
      else none
    else none

/-- Strict UTF-8 decoder (the fuelled step run with enough fuel: at most one
character per input byte). -/
def utf8Decode (l : List Nat) : Option (List Char) := utf8DecodeF l.length l

/-- Model of Rust `String::from_utf8`: `some` on valid UTF-8, `none` on a
decode failure. -/
def from_utf8 (l : List Nat) : Option String :=
  (utf8Decode l).map String.mk

/-! ## Compression utility and error normalization

`crate::utils::{compress, decompress, DEFAULT_COMPRESSION_LEVEL}` and
`crate::error::err_to_string` are code of this repository that is not among
the sources under verification; they are modelled from the spec. -/

/-- Modelled from the spec: the fault kinds observable through this driver
(missing key, compression/decompression failure, upload failure); the spec's
error taxonomy reduced to the cases the reference backend can produce. -/
inductive StoreError where
  | noSuchKey
  | compressionFailed
  | decompressionFailed
  | uploadFailed
deriving DecidableEq

/-- Modelled from the spec: error normalization — backend-native error
variants are converted to a string description. -/
def err_to_string : StoreError → String
  | .noSuchKey => "NoSuchKey: the specified key does not exist"
  | .compressionFailed => "compression failed"
  | .decompressionFailed => "invalid compressed data"
  | .uploadFailed => "service error"

/-- Modelled from the spec: marker byte identifying the compressed wire
format, so that `decompress` rejects data that is not `compress` output. -/
def COMPRESSION_MAGIC : Nat := 0x78

/-- Modelled from the spec: the fixed default compression level
(`crate::utils::DEFAULT_COMPRESSION_LEVEL`). -/
def DEFAULT_COMPRESSION_LEVEL : Nat := 6

/-- Modelled from the spec: `compress(bytes, level) -> bytes`, fallible;
succeeds at every supported level and is inverted by `decompress`. The
compressed form carries a leading format marker, so its size differs from
the input size. -/
def compress (b : List Nat) (level : Nat) : Except StoreError (List Nat) :=
  if level ≤ 10 then .ok (COMPRESSION_MAGIC :: b)
  else .error .compressionFailed

/-- Modelled from the spec: `decompress(bytes) -> bytes`, fallible; inverts
`compress` and fails on input that is not valid compressed data. -/
def decompress (b : List Nat) : Except StoreError (List Nat) :=
  match b with
  | m :: rest =>
    if m = COMPRESSION_MAGIC then .ok rest else .error .decompressionFailed
  | [] => .error .decompressionFailed

/-- Modelled from the spec (external collaborator): the display message of
Rust's `FromUtf8Error`, interpolated into the driver's parse failure. -/
def utf8ErrorMsg : String := "invalid utf-8 sequence"

/-! ## The bucket content -/

/-- The content of the S3 bucket the driver is bound to: an association list
from storage keys to the stored byte sequences, in backend iteration order. -/
structure Store where
  objects : List (String × List Nat)
deriving DecidableEq

/-- Backend get-by-key: the stored bytes at `k`, if present. -/
def Store.lookup (st : Store) (k : String) : Option (List Nat) :=
  (st.objects.find? (fun e => e.1 == k)).map Prod.snd

/-- Backend put-by-key: stores `v` at `k`, silently overwriting. -/
def Store.put (st : Store) (k : String) (v : List Nat) : Store :=
  ⟨(k, v) :: st.objects.filter (fun e => e.1 != k)⟩

/-- The keys present in the bucket, in backend iteration order. -/
def Store.keys (st : Store) : List String := st.objects.map Prod.fst

/-- Backend list-by-prefix matching: `k` starts with the string `pre`
(compared on the underlying character lists). -/
def hasPre (pre k : String) : Bool := pre.data.isPrefixOf k.data

/-- The keys of the bucket that match a prefix, in backend iteration order:
what a fully successful paginated `ListObjectsV2` enumeration yields. -/
def Store.matchingKeys (st : Store) (pre : String) : List String :=
  st.keys.filter (fun k => hasPre pre k)

/-! ## Construction (`AwsS3::new`) -/

/-- The credential/region configuration assembled by `AwsS3::new`. -/
structure AwsConfig where
  access_key : String
  secret : String
  region : String
deriving DecidableEq

/-- The driver handle: a client configuration and the bucket it is bound
to (`struct AwsS3 { client, bucket }`). -/
structure AwsS3 where
  client : AwsConfig
  bucket : String
deriving DecidableEq

/-- `AwsS3::new`: reads the four configuration values (modelled as the four
`Option` arguments, `none` standing for a missing variable); if any is
missing, returns `none`; otherwise builds the client from the credentials
and region and binds the handle to the given bucket. -/
def AwsS3.new (access_key secret region bucket : Option String) :
    Option AwsS3 :=
  match access_key, secret, region, bucket with
  | some ak, some sk, some r, some b =>
    some { client := ⟨ak, sk, r⟩, bucket := b }
  | _, _, _, _ => none

/-! ## Key derivation and the private helpers `get_object` /
`upload_object` -/

/-- The key-with-prefix computation appearing in `AwsS3::get_object` and
`AwsS3::upload_object`: `format!("{path}/{key}")` when a path is given,
`key` otherwise. -/
def deriveKey (key : String) (file_path : Option String) : String :=
  match file_path with
  | some path => path ++ "/" ++ key
  | none => key

/-- `AwsS3::get_object`: fetch the bytes at the derived key; a missing key
surfaces as the backend's `NoSuchKey` fault run through `err_to_string`;
the streamed body chunks are concatenated into one buffer. -/
def get_object (st : Store) (key : String) (file_path : Option String) :
    Except String (List Nat) :=
  match st.lookup (deriveKey key file_path) with
  | some buffer => .ok buffer
  | none => .error (err_to_string .noSuchKey)

/-! ## The `DataStoreDriver` operations -/

/-- `fetch_object`: get the plain payload and decode it as UTF-8; a decode
failure is reported as a parse failure, a get failure as a fetch failure. -/
def fetch_object (st : Store) (file_name : String)
    (file_path : Option String) : Except String String :=
  match get_object st file_name file_path with
  | .ok buffer =>
    match from_utf8 buffer with
    | some json => .ok json
    | none => .error ("Failed to parse json: " ++ utf8ErrorMsg)
  | .error err => .error ("Failed to get json file: " ++ err)

/-- `upload_object`: write the UTF-8 bytes of `contents` verbatim at the
derived key and return the byte length of `contents`; the backend put
succeeds against the modelled reachable store. -/
def upload_object (st : Store) (file_name : String) (contents : String)
    (file_path : Option String) : Except String Nat × Store :=
  let size := (utf8Encode contents).length
  (.ok size, st.put (deriveKey file_name file_path) (utf8Encode contents))

/-- `fetch_compressed_object`: get the raw payload, record its (compressed)
size, and return the decompressed bytes with that size; a decompression
failure is reported through `err_to_string`, a get failure as a fetch
failure. -/
def fetch_compressed_object (st : Store) (file_name : String)
    (file_path : Option String) : Except String (List Nat × Nat) :=
  match get_object st file_name file_path with
  | .ok buffer =>
    match decompress buffer with
    | .ok data => .ok (data, buffer.length)
    | .error e => .error (err_to_string e)
  | .error err => .error ("Failed to get json file: " ++ err)

/-- The body of `upload_compressed_object` with the outcomes of its two
effectful sub-calls (the compression, already run through `err_to_string`,
and the backend put) made explicit: a compression failure returns that error
with no write; otherwise the compressed bytes are written and their length
returned, a put failure being reported as a save failure. -/
def upload_compressed_step (st : Store) (key : String)
    (compResult : Except String (List Nat))
    (putResult : Except String Unit) : Except String Nat × Store :=
  match compResult with
  | .error e => (.error e, st)
  | .ok compressed =>
    match putResult with
    | .ok _ => (.ok compressed.length, st.put key compressed)
    | .error e => (.error ("Failed to save json file: " ++ e), st)

/-- `upload_compressed_object`: compress `contents` at the default level,
then write the compressed bytes at the derived key; the backend put succeeds
against the modelled reachable store. -/
def upload_compressed_object (st : Store) (file_name : String)
    (contents : List Nat) (file_path : Option String) :
    Except String Nat × Store :=
  upload_compressed_step st (deriveKey file_name file_path)
    (match compress contents DEFAULT_COMPRESSION_LEVEL with
     | .ok c => .ok c
     | .error e => .error (err_to_string e))
    (.ok ())

/-! ## Listing -/

/-- The listing prefix computed at the top of `list_objects`: `""`, replaced
by `format!("{path}/")` when a path is given. -/
def pathPre (file_path : Option String) : String :=
  match file_path with
  | some path => path ++ "/"
  | none => ""

/-- The `while let` loop of `list_objects` over the stream of page results
the paginator hands back: each page is either an error or a list of entries
whose key metadata may be missing (`none`); an entry's key is read with
`unwrap_or("Unknown")`; the first failed page aborts the whole call with
`"Unable to list objects"`. -/
def list_objects_pages
    (pages : List (Except String (List (Option String)))) :
    Except String (List String) :=
  match pages with
  | [] => .ok []
  | .error _ :: _ => .error "Unable to list objects"
  | .ok entries :: rest =>
    match list_objects_pages rest with
    | .ok keys =>
      .ok (entries.map (fun o => o.getD "Unknown") ++ keys)
    | .error e => .error e

/-- Splitting a list into pages of 50, fuelled to make the recursion
structural (one unit of fuel per page; a list of length `n` has at most `n`
nonempty pages). -/
def chunkF : Nat → List α → List (List α)
  | _, [] => []
  | 0, _ :: _ => []
  | fuel + 1, a :: rest =>
    ((a :: rest).take 50) :: chunkF fuel ((a :: rest).drop 50)

/-- Splitting a key list into the pages a `max_keys(50)` paginator yields. -/
def chunkList (l : List α) : List (List α) := chunkF l.length l

/-- The page stream a reachable backend produces for a prefix query over
`st`: the matching keys split into pages of 50, every page succeeding and
every entry carrying its key. -/
def listPages (st : Store) (file_path : Option String) :
    List (Except String (List (Option String))) :=
  (chunkList (st.matchingKeys (pathPre file_path))).map
    (fun pg => .ok (pg.map some))

/-- `list_objects` against the modelled reachable store: the paginator loop
run on the store's page stream for the derived prefix. -/
def list_objects (st : Store) (file_path : Option String) :
    Except String (List String) :=
  list_objects_pages (listPages st file_path)

/-! ## Helper lemmas: UTF-8 round trip -/

theorem char_toNat_valid (c : Char) :
    c.toNat < 0xD800 ∨ (0xDFFF < c.toNat ∧ c.toNat < 0x110000) := c.valid

theorem utf8DecodeF_encodeChar (f : Nat) (c : Char) (rest : List Nat) :
    utf8DecodeF (f + 1) (utf8EncodeChar c ++ rest) =
      (utf8DecodeF f rest).map (fun cs => c :: cs) := by
  have hv := char_toNat_valid c
  rw [utf8EncodeChar]
  by_cases k1 : c.toNat < 0x80
  · simp only [if_pos k1, List.cons_append, List.nil_append]
    rw [utf8DecodeF]
    simp only [if_pos k1, Char.ofNat_toNat]
  · by_cases k2 : c.toNat < 0x800
    · simp only [if_neg k1, if_pos k2, List.cons_append, List.nil_append]
      rw [utf8DecodeF]
      simp only [List.getD_cons_zero, List.drop_succ_cons, List.drop_zero]
      rw [if_neg (by omega), if_neg (by omega), if_pos (by omega),
        if_pos (by constructor <;> omega)]
      have harg : (0xC0 + c.toNat / 64 - 0xC0) * 64 +
          (0x80 + c.toNat % 64 - 0x80) = c.toNat := by omega
      rw [harg, Char.ofNat_toNat]
    · by_cases k3 : c.toNat < 0x10000
      · simp only [if_neg k1, if_neg k2, if_pos k3, List.cons_append,
          List.nil_append]
        rw [utf8DecodeF]
        simp only [List.getD_cons_zero, List.getD_cons_succ,
          List.drop_succ_cons, List.drop_zero]
        have harg : (0xE0 + c.toNat / 4096 - 0xE0) * 4096 +
            (0x80 + c.toNat / 64 % 64 - 0x80) * 64 +
            (0x80 + c.toNat % 64 - 0x80) = c.toNat := by omega
        rw [if_neg (by omega), if_neg (by omega), if_neg (by omega),
          if_pos (by omega),
          if_pos (by constructor <;> constructor <;> omega)]
        rw [harg]
        rw [if_neg (by omega), if_neg (by omega), Char.ofNat_toNat]
      · simp only [if_neg k1, if_neg k2, if_neg k3, List.cons_append,
          List.nil_append]
        rw [utf8DecodeF]
        simp only [List.getD_cons_zero, List.getD_cons_succ,
          List.drop_succ_cons, List.drop_zero]
        have harg : (0xF0 + c.toNat / 0x40000 - 0xF0) * 0x40000 +
            (0x80 + c.toNat / 4096 % 64 - 0x80) * 4096 +
            (0x80 + c.toNat / 64 % 64 - 0x80) * 64 +
            (0x80 + c.toNat % 64 - 0x80) = c.toNat := by omega
        rw [if_neg (by omega), if_neg (by omega), if_neg (by omega),
          if_neg (by omega), if_pos (by omega),
          if_pos (by refine ⟨⟨?_, ?_⟩, ⟨?_, ?_⟩, ?_, ?_⟩ <;> omega)]
        rw [harg]
        rw [if_neg (by omega), if_neg (by omega), Char.ofNat_toNat]

theorem utf8DecodeF_encodeList (cs : List Char) (f : Nat)
    (hf : cs.length ≤ f) :
    utf8DecodeF f (utf8EncodeList cs) = some cs := by
  induction cs generalizing f with
  | nil =>
    cases f <;> rfl
  | cons c cs ih =>
    match f, hf with
    | f + 1, hf =>
      rw [utf8EncodeList, utf8DecodeF_encodeChar,
        ih f (by simpa using Nat.succ_le_succ_iff.mp hf), Option.map_some']

theorem utf8EncodeChar_length_pos (c : Char) :
    1 ≤ (utf8EncodeChar c).length := by
  rw [utf8EncodeChar]
  split
  · simp
  · split
    · simp
    · split <;> simp

theorem length_le_utf8EncodeList (cs : List Char) :
    cs.length ≤ (utf8EncodeList cs).length := by
  induction cs with
  | nil => simp [utf8EncodeList]
  | cons c cs ih =>
    rw [utf8EncodeList, List.length_append, List.length_cons]
    have := utf8EncodeChar_length_pos c
    omega

theorem from_utf8_encode (s : String) : from_utf8 (utf8Encode s) = some s := by
  rw [from_utf8, utf8Encode, utf8Decode,
    utf8DecodeF_encodeList s.data _ (length_le_utf8EncodeList s.data),
    Option.map_some']

/-! ## Helper lemmas: store and listing -/

theorem Store.lookup_put_self (st : Store) (k : String) (v : List Nat) :
    (st.put k v).lookup k = some v := by
  simp [Store.lookup, Store.put, List.find?]

theorem list_objects_pages_ok (pages : List (List (Option String))) :
    list_objects_pages (pages.map .ok) =
      .ok ((pages.map
        (fun pg => pg.map (fun o => o.getD "Unknown"))).flatten) := by
  induction pages with
  | nil => rfl
  | cons pg rest ih =>
    simp only [List.map_cons, list_objects_pages, ih, List.flatten_cons]

theorem list_objects_pages_error
    (pages : List (Except String (List (Option String)))) (e : String)
    (h : Except.error e ∈ pages) :
    list_objects_pages pages = .error "Unable to list objects" := by
  induction pages with
  | nil => cases h
  | cons p rest ih =>
    cases p with
    | error e' => rw [list_objects_pages]
    | ok entries =>
      have hm : Except.error e ∈ rest := by
        rcases List.mem_cons.mp h with h1 | h2
        · exact absurd h1 (by simp)
        · exact h2
      rw [list_objects_pages, ih hm]

theorem chunkF_flatten (f : Nat) (l : List α) (hf : l.length ≤ f) :
    (chunkF f l).flatten = l := by
  induction f generalizing l with
  | zero =>
    cases l with
    | nil => rfl
    | cons a rest => simp at hf
  | succ f ih =>
    cases l with
    | nil => rfl
    | cons a rest =>
      rw [chunkF, List.flatten_cons,
        ih ((a :: rest).drop 50) (by rw [List.length_drop]; omega)]
      exact List.take_append_drop 50 (a :: rest)

theorem chunkList_flatten (l : List α) : (chunkList l).flatten = l :=
  chunkF_flatten l.length l (Nat.le_refl _)

theorem list_objects_pages_all_some (pages : List (List String)) :
    list_objects_pages (pages.map (fun pg => .ok (pg.map some))) =
      .ok pages.flatten := by
  induction pages with
  | nil => rfl
  | cons pg rest ih =>
    simp only [List.map_cons, list_objects_pages, ih, List.flatten_cons]
    congr 1
    rw [List.map_map]
    rw [show ((fun o : Option String => o.getD "Unknown") ∘ some) = id from
      rfl]
    rw [List.map_id]

theorem list_objects_ok (st : Store) (file_path : Option String) :
    list_objects st file_path = .ok (st.matchingKeys (pathPre file_path)) := by
  rw [list_objects, listPages, list_objects_pages_all_some, chunkList_flatten]

/-! ## Claim theorems -/

/-- Claim C1: for every UTF-8 string `s`, `name`, and optional `path`,
`upload_object(name, s, path)` followed by `fetch_object(name, path)`
against the same store returns `s` unchanged, and the `Ok` value returned
by `upload_object` equals the byte length of `s` (the length of its UTF-8
encoding, Rust's `s.len()`). -/
theorem claimC1_plain_round_trip :
    ∀ (st : Store) (name contents : String) (path : Option String),
      fetch_object (upload_object st name contents path).2 name path =
        .ok contents ∧
      (upload_object st name contents path).1 =
        .ok (utf8Encode contents).length := by
  intro st name contents path
  constructor
  · show fetch_object
      (Store.put st (deriveKey name path) (utf8Encode contents)) name path =
        .ok contents
    simp only [fetch_object, get_object, Store.lookup_put_self,
      from_utf8_encode]
  · rfl

/-- Claim C2: for every byte sequence `b` (including the empty sequence),
`upload_compressed_object(name, b, path)` followed by
`fetch_compressed_object(name, path)` against the same store returns
`(b, size)` where `size` equals the byte length of the compressed data
actually written to the backend (the wire size), not the length of `b`. -/
theorem claimC2_compressed_round_trip :
    ∀ (st : Store) (name : String) (contents : List Nat)
      (path : Option String),
      ∃ written : List Nat,
        (upload_compressed_object st name contents path).2.lookup
            (deriveKey name path) = some written ∧
        (upload_compressed_object st name contents path).1 =
          .ok written.length ∧
        fetch_compressed_object
            (upload_compressed_object st name contents path).2 name path =
          .ok (contents, written.length) ∧
        written.length ≠ contents.length := by
  intro st name contents path
  have hup : upload_compressed_object st name contents path =
      (.ok (COMPRESSION_MAGIC :: contents).length,
        st.put (deriveKey name path) (COMPRESSION_MAGIC :: contents)) := by
    simp [upload_compressed_object, compress, DEFAULT_COMPRESSION_LEVEL,
      upload_compressed_step]
  refine ⟨COMPRESSION_MAGIC :: contents, ?_, ?_, ?_, ?_⟩
  · rw [hup]
    exact Store.lookup_put_self st (deriveKey name path)
      (COMPRESSION_MAGIC :: contents)
  · rw [hup]
  · rw [hup]
    simp [fetch_compressed_object, get_object, Store.lookup_put_self,
      decompress]
  · simp

/-- Claim C3: key derivation is a pure, deterministic function of
(path, name): the storage key used by every fetch and upload operation is
`path ++ "/" ++ name` when the path is present and `name` when it is
absent; in particular `derive_key(None, "a.json") = "a.json"` and
`derive_key(Some("p"), "a.json") = "p/a.json"`. The fetches depend on the
store only through the derived key, and the uploads write exactly at the
derived key. -/
theorem claimC3_key_derivation :
    deriveKey "a.json" none = "a.json" ∧
    deriveKey "a.json" (some "p") = "p/a.json" ∧
    (∀ (name path : String), deriveKey name (some path) =
      path ++ "/" ++ name) ∧
    (∀ name : String, deriveKey name none = name) ∧
    (∀ (st st' : Store) (name : String) (path : Option String),
      st.lookup (deriveKey name path) = st'.lookup (deriveKey name path) →
        fetch_object st name path = fetch_object st' name path ∧
        fetch_compressed_object st name path =
          fetch_compressed_object st' name path) ∧
    (∀ (st : Store) (name contents : String) (path : Option String),
      (upload_object st name contents path).2 =
        st.put (deriveKey name path) (utf8Encode contents)) ∧
    (∀ (st : Store) (name : String) (contents : List Nat)
        (path : Option String),
      (upload_compressed_object st name contents path).2 =
        st.put (deriveKey name path) (COMPRESSION_MAGIC :: contents)) := by
  refine ⟨rfl, rfl, fun name path => rfl, fun name => rfl, ?_, ?_, ?_⟩
  · intro st st' name path h
    constructor
    · rw [fetch_object, fetch_object, get_object, get_object, h]
    · rw [fetch_compressed_object, fetch_compressed_object, get_object,
        get_object, h]
  · intro st name contents path
    rfl
  · intro st name contents path
    simp [upload_compressed_object, compress, DEFAULT_COMPRESSION_LEVEL,
      upload_compressed_step]

/-- Claim C4: `list_objects(Some(p))` queries the backend with the prefix
`p ++ "/"` (the caller supplies no trailing separator) and, when every page
succeeds, returns exactly the keys of the store that begin with that
prefix — each matching key exactly once, no duplicates, no omissions —
regardless of how the backend splits the matching keys into pages (the
implementation's own page stream uses pages of 50). -/
theorem claimC4_listing_prefix :
    (∀ p : String, pathPre (some p) = p ++ "/") ∧
    (∀ (st : Store) (p : String),
      list_objects st (some p) =
        .ok (st.keys.filter (fun k => hasPre (p ++ "/") k))) ∧
    (∀ (st : Store) (p : String), st.keys.Nodup →
      ∃ ks, list_objects st (some p) = .ok ks ∧ ks.Nodup ∧
        ∀ k, k ∈ ks ↔ k ∈ st.keys ∧ hasPre (p ++ "/") k = true) ∧
    (∀ (pages : List (List String)) (st : Store) (p : String),
      pages.flatten = st.keys.filter (fun k => hasPre (p ++ "/") k) →
        list_objects_pages (pages.map (fun pg => .ok (pg.map some))) =
          .ok (st.keys.filter (fun k => hasPre (p ++ "/") k))) := by
  refine ⟨fun p => rfl, ?_, ?_, ?_⟩
  · intro st p
    rw [list_objects_ok]
    rfl
  · intro st p hnd
    refine ⟨st.keys.filter (fun k => hasPre (p ++ "/") k), ?_, ?_, ?_⟩
    · rw [list_objects_ok]
      rfl
    · exact List.Nodup.filter _ hnd
    · intro k
      constructor
      · intro hk
        have := List.mem_filter.mp hk
        exact ⟨this.1, this.2⟩
      · intro hk
        exact List.mem_filter.mpr ⟨hk.1, hk.2⟩
  · intro pages st p h
    rw [list_objects_pages_all_some, h]

/-- Claim C5: listing is all-or-nothing: if any page result in the
paginator's stream is a failure, the whole `list_objects` loop returns the
error `"Unable to list objects"`, and no key list gathered from earlier
successful pages is returned. -/
theorem claimC5_all_or_nothing
    (pages : List (Except String (List (Option String)))) (e : String)
    (h : Except.error e ∈ pages) :
    list_objects_pages pages = .error "Unable to list objects" ∧
    ∀ ks : List String, list_objects_pages pages ≠ .ok ks := by
  refine ⟨list_objects_pages_error pages e h, ?_⟩
  intro ks hk
  rw [list_objects_pages_error pages e h] at hk
  exact Except.noConfusion hk

/-- Witness for claim C5: a concrete two-page stream whose second page
fails; the loop discards the key gathered from the first page and fails. -/
theorem claimC5_all_or_nothing_witness :
    list_objects_pages
        [Except.ok [some "k1"], Except.error "connection reset"] =
      .error "Unable to list objects" :=
  (claimC5_all_or_nothing
    [Except.ok [some "k1"], Except.error "connection reset"]
    "connection reset" (by simp)).1

/-- Claim C6: fetching a key absent from the store returns the normalized
missing-key (NotFound) error for both `fetch_object` and
`fetch_compressed_object`, never a success with empty content; a decode
failure (stored bytes not valid UTF-8, or not valid compressed data) is a
corrupt-data error distinct from the missing-key error. -/
theorem claimC6_error_classes :
    (∀ (st : Store) (name : String) (path : Option String),
      st.lookup (deriveKey name path) = none →
        fetch_object st name path = .error
          ("Failed to get json file: " ++ err_to_string .noSuchKey) ∧
        fetch_compressed_object st name path = .error
          ("Failed to get json file: " ++ err_to_string .noSuchKey)) ∧
    (∀ (st : Store) (name : String) (path : Option String) (b : List Nat),
      st.lookup (deriveKey name path) = some b → from_utf8 b = none →
        fetch_object st name path =
          .error ("Failed to parse json: " ++ utf8ErrorMsg)) ∧
    (∀ (st : Store) (name : String) (path : Option String) (b : List Nat),
      st.lookup (deriveKey name path) = some b →
        decompress b = .error .decompressionFailed →
        fetch_compressed_object st name path =
          .error (err_to_string .decompressionFailed)) ∧
    ("Failed to parse json: " ++ utf8ErrorMsg ≠
      "Failed to get json file: " ++ err_to_string .noSuchKey) ∧
    (err_to_string .decompressionFailed ≠
      "Failed to get json file: " ++ err_to_string .noSuchKey) := by
  refine ⟨?_, ?_, ?_, by decide, by decide⟩
  · intro st name path h
    constructor
    · rw [fetch_object, get_object, h]
    · rw [fetch_compressed_object, get_object, h]
  · intro st name path b hb hd
    rw [fetch_object, get_object, hb]
    simp only [hd]
  · intro st name path b hb hd
    rw [fetch_compressed_object, get_object, hb]
    simp only [hd]

/-- Claim C7: constructing the reference backend with any of the four
required configuration values (access key, secret, region, bucket) absent
yields `none` (unavailable) rather than a crash; with all four present it
yields a driver handle bound to the given bucket. -/
theorem claimC7_construction :
    (∀ ak sk r b : Option String,
      (ak = none ∨ sk = none ∨ r = none ∨ b = none) →
        AwsS3.new ak sk r b = none) ∧
    (∀ ak sk r b : String,
      AwsS3.new (some ak) (some sk) (some r) (some b) =
        some { client := ⟨ak, sk, r⟩, bucket := b } ∧
      ∃ d : AwsS3, AwsS3.new (some ak) (some sk) (some r) (some b) =
        some d ∧ d.bucket = b) := by
  constructor
  · intro ak sk r b h
    cases ak <;> cases sk <;> cases r <;> cases b <;>
      simp_all [AwsS3.new]
  · intro ak sk r b
    exact ⟨rfl, ⟨{ client := ⟨ak, sk, r⟩, bucket := b }, rfl, rfl⟩⟩

/-- Claim C8: `upload_compressed_object` compresses its input at the fixed
default compression level before any write and on success returns the
compressed size; when the compression step fails, its error is returned
with the store unchanged (no write attempted), and that error is distinct
from the save-failure error an upload failure produces. -/
theorem claimC8_upload_compressed :
    (∀ contents : List Nat, compress contents DEFAULT_COMPRESSION_LEVEL =
      .ok (COMPRESSION_MAGIC :: contents)) ∧
    (∀ (st : Store) (name : String) (contents : List Nat)
        (path : Option String),
      upload_compressed_object st name contents path =
        (.ok (COMPRESSION_MAGIC :: contents).length,
          st.put (deriveKey name path) (COMPRESSION_MAGIC :: contents))) ∧
    (∀ (st : Store) (key e : String) (putResult : Except String Unit),
      upload_compressed_step st key (.error e) putResult =
        (.error e, st)) ∧
    (∀ (st : Store) (key : String) (compressed : List Nat) (e : String),
      upload_compressed_step st key (.ok compressed) (.error e) =
        (.error ("Failed to save json file: " ++ e), st)) ∧
    (∀ m : String, err_to_string .compressionFailed ≠
      "Failed to save json file: " ++ m) := by
  refine ⟨?_, ?_, ?_, ?_, ?_⟩
  · intro contents
    simp [compress, DEFAULT_COMPRESSION_LEVEL]
  · intro st name contents path
    simp [upload_compressed_object, compress, DEFAULT_COMPRESSION_LEVEL,
      upload_compressed_step]
  · intro st key e putResult
    rfl
  · intro st key compressed e
    rfl
  · intro m h
    have hl := congrArg String.length h
    rw [String.length_append] at hl
    have h1 : (err_to_string StoreError.compressionFailed).length = 18 := by
      decide
    have h2 : ("Failed to save json file: " : String).length = 26 := by
      decide
    omega

/-- Claim C9: a listing entry whose key metadata is missing does not fail
the call: the entry appears in the successful result as the placeholder
`"Unknown"` (concretely, and in general for any all-successful page
stream). -/
theorem claimC9_missing_key_placeholder :
    list_objects_pages [Except.ok [some "a", none, some "b"]] =
      .ok ["a", "Unknown", "b"] ∧
    (∀ pages : List (List (Option String)),
      list_objects_pages (pages.map Except.ok) =
        .ok ((pages.map
          (fun pg => pg.map (fun o => o.getD "Unknown"))).flatten)) := by
  exact ⟨rfl, list_objects_pages_ok⟩

/-- Claim C10: `list_objects(None)` queries the backend with the empty
prefix, so on success it returns every key in the bucket — including keys
that were uploaded under a path prefix — not only keys of objects uploaded
with no path. -/
theorem claimC10_list_none :
    pathPre none = "" ∧
    (∀ st : Store, list_objects st none = .ok st.keys) ∧
    (∀ (st : Store) (name contents : String) (p : String),
      deriveKey name (some p) ∈
        (upload_object st name contents (some p)).2.keys ∧
      list_objects (upload_object st name contents (some p)).2 none =
        .ok ((upload_object st name contents (some p)).2.keys)) := by
  have hall : ∀ st : Store, list_objects st none = .ok st.keys := by
    intro st
    rw [list_objects_ok]
    show Except.ok (st.keys.filter (fun k => hasPre "" k)) = _
    congr 1
    refine List.filter_eq_self.mpr (fun a _ => ?_)
    rw [hasPre, show ("" : String).data = [] from rfl]
    simp [List.isPrefixOf]
  refine ⟨rfl, hall, ?_⟩
  intro st name contents p
  constructor
  · show deriveKey name (some p) ∈
      (st.put (deriveKey name (some p)) (utf8Encode contents)).keys
    simp [Store.put, Store.keys]
  · exact hall _
